import Mathlib

/-!
Shallow embedding of dm-data-renamer (src/main.py) and verification of its
specification claims.

The database is modelled as a list of tables; a table has a name, a list of
column names, and opaque row contents. SQLite statement execution is modelled
by pure state transitions:

* ALTER TABLE old RENAME TO new succeeds iff a table named old exists and no
  table named new exists; on success only the name field changes.
* ALTER TABLE t RENAME COLUMN old TO new succeeds iff table t exists, column
  old exists in it and column new does not.
* PRAGMA table_info(t) returns the column list of t, and the empty list when
  no table named t exists (SQLite returns no rows rather than an error).
* Exceptional driver failures (locks, I/O errors, collisions with objects not
  in the modelled catalog such as indexes) are injected through explicit
  fault parameters: a statement whose position is listed in the fault set
  raises sqlite3.Error even if the modelled semantics would succeed.

Python dict insertion is modelled by an association list with
insert-or-update-in-place semantics, matching dict ordering guarantees.
-/

structure Table where
  name : String
  cols : List String
  rows : List (List String)
deriving Repr, DecidableEq

abbrev DB := List Table

/-- SQL statements issued through the cursor, in issue order. -/
inductive Stmt where
  | selectTables : Stmt
  | alterTableRename (old new : String) : Stmt
  | pragmaTableInfo (t : String) : Stmt
  | alterColumnRename (t old new : String) : Stmt
  | commit : Stmt
deriving Repr, DecidableEq

/-- A statement is mutating when it can change the stored schema. -/
def Stmt.mutating : Stmt → Bool
  | .alterTableRename _ _ => true
  | .alterColumnRename _ _ _ => true
  | .commit => true
  | _ => false

/-- Log lines emitted by the renamer, abstracted from their literal text. -/
inductive LogLine where
  | renamedTable (old new : String) : LogLine
  | failedTable (old new : String) : LogLine
  | dryRunTable (old new : String) : LogLine
  | tableEnumError : LogLine
  | renamedColumn (t old new : String) : LogLine
  | failedColumn (t old new : String) : LogLine
  | dryRunColumn (t old new : String) : LogLine
  | columnPhaseError : LogLine
  | fkWarning : LogLine
  | fkInfo (dryRun : Bool) : LogLine
  | commitDone : LogLine
  | dryRunDone : LogLine
deriving Repr, DecidableEq

def DB.tableNames (db : DB) : List String :=
  db.map Table.name

def DB.lookup (db : DB) (t : String) : Option Table :=
  db.find? (fun tb => tb.name == t)

/-- Result set of SELECT name FROM sqlite_master WHERE type='table'. -/
def DB.catalogTables (db : DB) : List String :=
  db.tableNames

/-- Semantics of ALTER TABLE old RENAME TO new. -/
def DB.renameTable (db : DB) (old new : String) : Option DB :=
  if db.tableNames.contains old && !db.tableNames.contains new then
    some (db.map (fun tb => if tb.name == old then { tb with name := new } else tb))
  else none

/-- Semantics of PRAGMA table_info(t): the column names of t, or the empty
list when no such table exists. -/
def DB.tableInfo (db : DB) (t : String) : List String :=
  match db.lookup t with
  | some tb => tb.cols
  | none => []

/-- Renaming one column inside a table. -/
def Table.renameCol (tb : Table) (old new : String) : Option Table :=
  if tb.cols.contains old && !tb.cols.contains new then
    some { tb with cols := tb.cols.map (fun c => if c == old then new else c) }
  else none

/-- Semantics of ALTER TABLE t RENAME COLUMN old TO new. -/
def DB.renameColumn (db : DB) (t old new : String) : Option DB :=
  match db.lookup t with
  | none => none
  | some tb =>
    match tb.renameCol old new with
    | none => none
    | some tb2 => some (db.map (fun x => if x.name == t then tb2 else x))

/-- Schema well-formedness: within each table, column names are distinct
(guaranteed by SQLite for any real database). -/
def DB.wf (db : DB) : Prop :=
  ∀ tb ∈ db, tb.cols.Nodup

/-- Python dict assignment d[k] = v on an association list: update in place
when the key exists, append otherwise. -/
def dictInsert (m : List (String × String)) (k v : String) : List (String × String) :=
  if m.any (fun p => p.1 == k) then
    m.map (fun p => if p.1 == k then (k, v) else p)
  else m ++ [(k, v)]

/-- The schema catalog of a database: table names with their column lists,
in catalog order. Row contents are not part of the catalog. -/
def DB.catalog (db : DB) : List (String × List String) :=
  db.map (fun tb => (tb.name, tb.cols))

/-- Doubling of embedded double quotes inside a quoted SQL identifier. -/
def escQuote : List Char → List Char
  | [] => []
  | c :: rest =>
    if c = '"' then '"' :: '"' :: escQuote rest else c :: escQuote rest

/-- A correctly quoted SQL identifier as the spec requires for untrusted
names: wrapped in double quotes with embedded double quotes doubled.
Modelled from the spec, for comparison with the statements the code builds. -/
def specQuotedIdent (s : String) : String :=
  String.mk ('"' :: (escQuote s.data ++ ['"']))

/-- The SQL text built for a table rename, exactly as in main.py line 48. -/
def alterTableSQL (old new : String) : String :=
  "ALTER TABLE \"" ++ old ++ "\" RENAME TO \"" ++ new ++ "\";"

/-- The SQL text built for a column rename, exactly as in main.py line 83. -/
def alterColumnSQL (t old new : String) : String :=
  "ALTER TABLE \"" ++ t ++ "\" RENAME COLUMN \"" ++ old ++ "\" TO \"" ++ new ++ "\";"

/-- State carried through the rename_tables loop. -/
structure TState where
  db : DB
  mapping : List (String × String)
  stmts : List Stmt
  logs : List LogLine
deriving Repr, DecidableEq

/-- One iteration of the for-loop of rename_tables (main.py lines 42-53):
i is the 0-based enumerate index; faults lists the indices whose ALTER raises
sqlite3.Error for an external reason. -/
def renameTableStep (prefix_ : String) (dryRun : Bool) (faults : List Nat)
    (old : String) (i : Nat) (s : TState) : TState :=
  let newName := prefix_ ++ Nat.repr (i + 1)
  let s1 : TState := { s with mapping := dictInsert s.mapping old newName }
  if !dryRun then
    let attempted := s1.stmts ++ [Stmt.alterTableRename old newName]
    match (if faults.contains i then none else s1.db.renameTable old newName) with
    | some db2 =>
      { s1 with db := db2, stmts := attempted,
                logs := s1.logs ++ [LogLine.renamedTable old newName] }
    | none =>
      { s1 with stmts := attempted,
                logs := s1.logs ++ [LogLine.failedTable old newName] }
  else { s1 with logs := s1.logs ++ [LogLine.dryRunTable old newName] }

/-- The for-loop of rename_tables applied to the remaining table names. -/
def renameTablesLoop (prefix_ : String) (dryRun : Bool) (faults : List Nat) :
    List String → Nat → TState → TState
  | [], _, s => s
  | old :: rest, i, s =>
    renameTablesLoop prefix_ dryRun faults rest (i + 1)
      (renameTableStep prefix_ dryRun faults old i s)

/-- rename_tables (main.py lines 25-58). enumFails injects a sqlite3.Error
into the catalog SELECT; faults injects failures into individual ALTERs. -/
def rename_tables (db : DB) (prefix_ : String) (dryRun : Bool)
    (enumFails : Bool) (faults : List Nat) : TState :=
  if enumFails then
    { db := db, mapping := [], stmts := [Stmt.selectTables],
      logs := [LogLine.tableEnumError] }
  else
    renameTablesLoop prefix_ dryRun faults db.catalogTables 0
      { db := db, mapping := [], stmts := [Stmt.selectTables], logs := [] }

/-- The intended mapping: each name paired with prefix + its 1-based position
(positions counted from i). -/
def intendedMapping (prefix_ : String) : List String → Nat → List (String × String)
  | [], _ => []
  | o :: rest, i => (o, prefix_ ++ Nat.repr (i + 1)) :: intendedMapping prefix_ rest (i + 1)

/-- Scenario database: users(id, name), orders(id, user_id). -/
def usersOrdersDB : DB :=
  [{ name := "users", cols := ["id", "name"], rows := [] },
   { name := "orders", cols := ["id", "user_id"], rows := [] }]

/-- A database whose first table already bears the generic name that its
third table will be assigned. -/
def collisionDB : DB :=
  [{ name := "table_3", cols := [], rows := [] },
   { name := "b", cols := [], rows := [] },
   { name := "c", cols := [], rows := [] }]

/-- A single-table database with chosen row contents. -/
def rowsDB (rs : List (List String)) : DB :=
  [{ name := "users", cols := ["id", "name"], rows := rs }]

/-- Big-endian decimal digit characters of n, by descent through division. -/
def decChars (n : Nat) : List Char :=
  if h : n < 10 then [Nat.digitChar n]
  else
    have : n / 10 < n := Nat.div_lt_self (by omega) (by omega)
    decChars (n / 10) ++ [Nat.digitChar (n % 10)]

/-- Decimal value of a digit-character list, most significant first. -/
def decVal (l : List Char) : Nat :=
  l.foldl (fun a c => 10 * a + (c.toNat - 48)) 0

theorem digitChar_toNat_sub (m : Nat) (h : m < 10) :
    (Nat.digitChar m).toNat - 48 = m := by
  interval_cases m <;> decide

theorem decVal_decChars (n : Nat) : decVal (decChars n) = n := by
  induction n using Nat.strong_induction_on with
  | _ n ih =>
    rw [decChars]
    by_cases h : n < 10
    · simp only [h, dif_pos, decVal, List.foldl]
      rw [digitChar_toNat_sub n h]
      omega
    · simp only [h, dif_neg, not_false_iff]
      have hlt : n / 10 < n := Nat.div_lt_self (by omega) (by omega)
      simp only [decVal, List.foldl_append, List.foldl]
      have := ih (n / 10) hlt
      simp only [decVal] at this
      rw [this, digitChar_toNat_sub (n % 10) (by omega)]
      omega

theorem toDigitsCore_eq_decChars :
    ∀ (fuel n : Nat) (ds : List Char), n < fuel →
      Nat.toDigitsCore 10 fuel n ds = decChars n ++ ds := by
  intro fuel
  induction fuel with
  | zero => intro n ds h; omega
  | succ fuel ih =>
    intro n ds h
    show (if n / 10 = 0 then Nat.digitChar (n % 10) :: ds
          else Nat.toDigitsCore 10 fuel (n / 10) (Nat.digitChar (n % 10) :: ds))
        = decChars n ++ ds
    by_cases h0 : n / 10 = 0
    · have hn : n < 10 := by omega
      rw [if_pos h0, decChars]
      simp only [hn, dif_pos]
      have : n % 10 = n := by omega
      rw [this]
      rfl
    · rw [if_neg h0]
      have hn10 : ¬ n < 10 := by omega
      have hfuel : n / 10 < fuel := by
        have : n / 10 < n := Nat.div_lt_self (by omega) (by omega)
        omega
      rw [ih (n / 10) (Nat.digitChar (n % 10) :: ds) hfuel]
      conv_rhs => rw [decChars]
      simp only [hn10, dif_neg, not_false_iff, List.append_assoc,
        List.singleton_append]

theorem natRepr_eq_decChars (n : Nat) : Nat.repr n = (decChars n).asString := by
  show (Nat.toDigits 10 n).asString = (decChars n).asString
  rw [Nat.toDigits, toDigitsCore_eq_decChars (n + 1) n [] (Nat.lt_succ_self n),
    List.append_nil]

theorem natRepr_injective : Function.Injective Nat.repr := by
  intro m n h
  rw [natRepr_eq_decChars, natRepr_eq_decChars] at h
  have hd : decChars m = decChars n := congrArg String.data h
  have := congrArg decVal hd
  rwa [decVal_decChars, decVal_decChars] at this

theorem string_append_cancel_left {p a b : String} (h : p ++ a = p ++ b) :
    a = b := by
  have hd : p.data ++ a.data = p.data ++ b.data := congrArg String.data h
  exact String.ext (List.append_cancel_left hd)

/-- The generic-name generator j ↦ prefix + (j+1) is injective. -/
theorem genName_injective (p : String) :
    Function.Injective (fun j : Nat => p ++ Nat.repr (j + 1)) := by
  intro a b h
  have := natRepr_injective (string_append_cancel_left h)
  omega

theorem intendedMapping_map_fst (p : String) (l : List String) (i : Nat) :
    (intendedMapping p l i).map Prod.fst = l := by
  induction l generalizing i with
  | nil => rfl
  | cons o rest ih => simp [intendedMapping, ih]

theorem intendedMapping_map_snd (p : String) (l : List String) (i : Nat) :
    (intendedMapping p l i).map Prod.snd
      = (List.range l.length).map (fun j => p ++ Nat.repr (i + j + 1)) := by
  induction l generalizing i with
  | nil => rfl
  | cons o rest ih =>
    simp only [intendedMapping, List.map_cons, List.length_cons,
      List.range_succ_eq_map, List.map_map]
    rw [ih (i + 1)]
    refine congrArg₂ _ (by simp) (List.map_congr_left ?_)
    intro j _
    simp only [Function.comp, Nat.succ_eq_add_one]
    have h : i + 1 + j + 1 = i + (j + 1) + 1 := by omega
    rw [h]

/-- State carried through the rename_columns loops. colMaps records, per
processed table, the local column_mapping dict built for it (observability
only; the source keeps it in a local variable and logs from it). -/
structure CState where
  db : DB
  colMaps : List (String × List (String × String))
  stmts : List Stmt
  logs : List LogLine
deriving Repr, DecidableEq

/-- Result of processing the columns of one table. -/
structure ColStep where
  db : DB
  cm : List (String × String)
  stmts : List Stmt
  logs : List LogLine
deriving Repr, DecidableEq

/-- The inner for-loop of rename_columns (main.py lines 77-88) over the
enumerated columns of table t; i is the 0-based enumerate index; colFaults
lists pairs (table index, column index) whose ALTER raises sqlite3.Error for
an external reason. -/
def renameColStep (prefix_ : String) (dryRun : Bool) (t : String) (tIdx : Nat)
    (colFaults : List (Nat × Nat)) (old : String) (i : Nat) (r : ColStep) : ColStep :=
  let newName := prefix_ ++ Nat.repr (i + 1)
  let r1 : ColStep := { r with cm := dictInsert r.cm old newName }
  if !dryRun then
    let attempted := r1.stmts ++ [Stmt.alterColumnRename t old newName]
    match (if colFaults.contains (tIdx, i) then none
           else r1.db.renameColumn t old newName) with
    | some db2 =>
      { r1 with db := db2, stmts := attempted,
                logs := r1.logs ++ [LogLine.renamedColumn t old newName] }
    | none =>
      { r1 with stmts := attempted,
                logs := r1.logs ++ [LogLine.failedColumn t old newName] }
  else { r1 with logs := r1.logs ++ [LogLine.dryRunColumn t old newName] }

/-- The inner for-loop of rename_columns over the remaining columns of t. -/
def renameColsLoop (prefix_ : String) (dryRun : Bool) (t : String) (tIdx : Nat)
    (colFaults : List (Nat × Nat)) :
    List String → Nat → ColStep → ColStep
  | [], _, r => r
  | old :: rest, i, r =>
    renameColsLoop prefix_ dryRun t tIdx colFaults rest (i + 1)
      (renameColStep prefix_ dryRun t tIdx colFaults old i r)

/-- The outer for-loop of rename_columns (main.py lines 72-88) over the new
table names (the values of table_mapping). The try/except in the source wraps
this whole loop, so a PRAGMA that raises (index in pragmaFaults) aborts the
loop: the error is logged and no further table is processed. -/
def renameColumnsLoop (prefix_ : String) (dryRun : Bool) (pragmaFaults : List Nat)
    (colFaults : List (Nat × Nat)) :
    List String → Nat → CState → CState
  | [], _, s => s
  | t :: rest, tIdx, s =>
    if pragmaFaults.contains tIdx then
      { s with stmts := s.stmts ++ [Stmt.pragmaTableInfo t],
               logs := s.logs ++ [LogLine.columnPhaseError] }
    else
      let cols := s.db.tableInfo t
      let r := renameColsLoop prefix_ dryRun t tIdx colFaults cols 0
        { db := s.db, cm := [],
          stmts := s.stmts ++ [Stmt.pragmaTableInfo t], logs := s.logs }
      renameColumnsLoop prefix_ dryRun pragmaFaults colFaults rest (tIdx + 1)
        { db := r.db, colMaps := s.colMaps ++ [(t, r.cm)],
          stmts := r.stmts, logs := r.logs }

/-- rename_columns (main.py lines 61-90). Iterates table_mapping.values(),
i.e. the new table names. -/
def rename_columns (db : DB) (prefix_ : String)
    (table_mapping : List (String × String)) (dryRun : Bool)
    (pragmaFaults : List Nat) (colFaults : List (Nat × Nat)) : CState :=
  renameColumnsLoop prefix_ dryRun pragmaFaults colFaults
    (table_mapping.map Prod.snd) 0
    { db := db, colMaps := [], stmts := [], logs := [] }

/-- handle_foreign_key_constraints (main.py lines 93-102): a stub that only
logs; it issues no statement and leaves the database untouched. -/
def handle_foreign_key_constraints (db : DB)
    (table_mapping : List (String × String)) (dryRun : Bool) :
    DB × List Stmt × List LogLine :=
  (db, [], [LogLine.fkWarning, LogLine.fkInfo dryRun])

/-- Result of one whole run of main's core (main.py lines 130-138). -/
structure RunResult where
  mapping : List (String × String)
  db : DB
  stmts : List Stmt
  logs : List LogLine
deriving Repr, DecidableEq

/-- The core of main (main.py lines 130-138): rename_tables, then
rename_columns on its mapping, then the constraint advisory, then commit
unless dry run. -/
def runAll (db : DB) (prefixTable prefixColumn : String) (dryRun : Bool)
    (enumFails : Bool) (tableFaults : List Nat) (pragmaFaults : List Nat)
    (colFaults : List (Nat × Nat)) : RunResult :=
  let s1 := rename_tables db prefixTable dryRun enumFails tableFaults
  let s2 := rename_columns s1.db prefixColumn s1.mapping dryRun pragmaFaults colFaults
  let a := handle_foreign_key_constraints s2.db s1.mapping dryRun
  { mapping := s1.mapping,
    db := a.1,
    stmts := s1.stmts ++ s2.stmts ++ a.2.1
      ++ (if !dryRun then [Stmt.commit] else []),
    logs := s1.logs ++ s2.logs ++ a.2.2
      ++ (if !dryRun then [LogLine.commitDone] else [LogLine.dryRunDone]) }

theorem dictInsert_of_not_mem (m : List (String × String)) (k v : String)
    (h : ∀ p ∈ m, p.1 ≠ k) : dictInsert m k v = m ++ [(k, v)] := by
  unfold dictInsert
  rw [if_neg]
  simp only [List.any_eq_true, beq_iff_eq, not_exists, not_and]
  exact h

theorem renameTableStep_mapping (p : String) (d : Bool) (f : List Nat)
    (old : String) (i : Nat) (s : TState) :
    (renameTableStep p d f old i s).mapping
      = dictInsert s.mapping old (p ++ Nat.repr (i + 1)) := by
  unfold renameTableStep
  cases d with
  | true => rfl
  | false =>
    cases hx : (if f.contains i then none
        else DB.renameTable s.db old (p ++ Nat.repr (i + 1))) with
    | none => simp only [hx]; simp
    | some db2 => simp only [hx]; simp

theorem renameTableStep_stmts (p : String) (d : Bool) (f : List Nat)
    (old : String) (i : Nat) (s : TState) :
    (renameTableStep p d f old i s).stmts
      = s.stmts ++ (if !d then [Stmt.alterTableRename old (p ++ Nat.repr (i + 1))]
                    else []) := by
  unfold renameTableStep
  cases d with
  | true => simp
  | false =>
    cases hx : (if f.contains i then none
        else DB.renameTable s.db old (p ++ Nat.repr (i + 1))) with
    | none => simp only [hx]; simp
    | some db2 => simp only [hx]; simp

theorem renameTableStep_logs_length (p : String) (d : Bool) (f : List Nat)
    (old : String) (i : Nat) (s : TState) :
    (renameTableStep p d f old i s).logs.length = s.logs.length + 1 := by
  unfold renameTableStep
  cases d with
  | true => simp
  | false =>
    cases hx : (if f.contains i then none
        else DB.renameTable s.db old (p ++ Nat.repr (i + 1))) with
    | none => simp only [hx]; simp
    | some db2 => simp only [hx]; simp

theorem renameTableStep_dry_db (p : String) (f : List Nat)
    (old : String) (i : Nat) (s : TState) :
    (renameTableStep p true f old i s).db = s.db := rfl

theorem renameTableStep_dry_stmts (p : String) (f : List Nat)
    (old : String) (i : Nat) (s : TState) :
    (renameTableStep p true f old i s).stmts = s.stmts := rfl

theorem renameTablesLoop_mapping (p : String) (d : Bool) (f : List Nat) :
    ∀ (rest : List String) (i : Nat) (s : TState),
      (∀ o ∈ rest, ∀ q ∈ s.mapping, q.1 ≠ o) → rest.Nodup →
      (renameTablesLoop p d f rest i s).mapping
        = s.mapping ++ intendedMapping p rest i := by
  intro rest
  induction rest with
  | nil => intro i s _ _; simp [renameTablesLoop, intendedMapping]
  | cons old rest ih =>
    intro i s hfresh hnd
    have hm : (renameTableStep p d f old i s).mapping
        = s.mapping ++ [(old, p ++ Nat.repr (i + 1))] := by
      rw [renameTableStep_mapping]
      exact dictInsert_of_not_mem _ _ _
        (fun q hq => hfresh old (List.mem_cons_self old rest) q hq)
    have hfresh2 : ∀ o ∈ rest, ∀ q ∈ (renameTableStep p d f old i s).mapping,
        q.1 ≠ o := by
      intro o ho q hq
      rw [hm] at hq
      rcases List.mem_append.mp hq with h1 | h2
      · exact hfresh o (List.mem_cons_of_mem _ ho) q h1
      · obtain rfl := List.mem_singleton.mp h2
        intro hcontra
        have heq : old = o := hcontra
        subst heq
        exact (List.nodup_cons.mp hnd).1 ho
    rw [renameTablesLoop, ih (i + 1) _ hfresh2 (List.nodup_cons.mp hnd).2, hm,
      intendedMapping]
    simp

theorem renameTablesLoop_mapping_indep (p : String) :
    ∀ (rest : List String) (i : Nat) (d1 d2 : Bool) (f1 f2 : List Nat)
      (s1 s2 : TState), s1.mapping = s2.mapping →
      (renameTablesLoop p d1 f1 rest i s1).mapping
        = (renameTablesLoop p d2 f2 rest i s2).mapping := by
  intro rest
  induction rest with
  | nil => intro i d1 d2 f1 f2 s1 s2 h; simpa [renameTablesLoop] using h
  | cons old rest ih =>
    intro i d1 d2 f1 f2 s1 s2 h
    rw [renameTablesLoop, renameTablesLoop]
    exact ih (i + 1) d1 d2 f1 f2 _ _
      (by rw [renameTableStep_mapping, renameTableStep_mapping, h])

theorem renameTablesLoop_stmts_nondry (p : String) (f : List Nat) :
    ∀ (rest : List String) (i : Nat) (s : TState),
      (renameTablesLoop p false f rest i s).stmts
        = s.stmts ++ (intendedMapping p rest i).map
            (fun q => Stmt.alterTableRename q.1 q.2) := by
  intro rest
  induction rest with
  | nil => intro i s; simp [renameTablesLoop, intendedMapping]
  | cons old rest ih =>
    intro i s
    rw [renameTablesLoop, ih, renameTableStep_stmts, intendedMapping]
    simp

theorem renameTablesLoop_logs_length (p : String) (d : Bool) (f : List Nat) :
    ∀ (rest : List String) (i : Nat) (s : TState),
      (renameTablesLoop p d f rest i s).logs.length
        = s.logs.length + rest.length := by
  intro rest
  induction rest with
  | nil => intro i s; simp [renameTablesLoop]
  | cons old rest ih =>
    intro i s
    rw [renameTablesLoop, ih, renameTableStep_logs_length]
    simp only [List.length_cons]
    omega

theorem renameTablesLoop_dry_db (p : String) (f : List Nat) :
    ∀ (rest : List String) (i : Nat) (s : TState),
      (renameTablesLoop p true f rest i s).db = s.db := by
  intro rest
  induction rest with
  | nil => intro i s; rfl
  | cons old rest ih =>
    intro i s
    rw [renameTablesLoop, ih, renameTableStep_dry_db]

theorem renameTablesLoop_dry_stmts (p : String) (f : List Nat) :
    ∀ (rest : List String) (i : Nat) (s : TState),
      (renameTablesLoop p true f rest i s).stmts = s.stmts := by
  intro rest
  induction rest with
  | nil => intro i s; rfl
  | cons old rest ih =>
    intro i s
    rw [renameTablesLoop, ih, renameTableStep_dry_stmts]

/-- C1: for every run, rename_tables returns a mapping with exactly one entry
per table present at run start, keyed by the original table names in
discovery order; the i-th (1-indexed) value is the table prefix concatenated
with i, so there are N entries whose values are exactly prefix+1..prefix+N
with no duplicates. -/
theorem rename_tables_mapping_spec (db : DB) (p : String) (d : Bool)
    (faults : List Nat) (h : db.tableNames.Nodup) :
    ((rename_tables db p d false faults).mapping.map Prod.fst = db.tableNames)
    ∧ ((rename_tables db p d false faults).mapping.map Prod.snd
        = (List.range db.tableNames.length).map (fun j => p ++ Nat.repr (j + 1)))
    ∧ ((rename_tables db p d false faults).mapping.map Prod.snd).Nodup := by
  have hrt : rename_tables db p d false faults
      = renameTablesLoop p d faults db.tableNames 0
          { db := db, mapping := [], stmts := [Stmt.selectTables], logs := [] } := rfl
  have hm : (rename_tables db p d false faults).mapping
      = intendedMapping p db.tableNames 0 := by
    rw [hrt, renameTablesLoop_mapping p d faults db.tableNames 0 _
      (by intro o ho q hq; simp at hq) h]
    simp
  refine ⟨?_, ?_, ?_⟩
  · rw [hm, intendedMapping_map_fst]
  · rw [hm, intendedMapping_map_snd]
    exact List.map_congr_left (fun j _ => by norm_num)
  · rw [hm, intendedMapping_map_snd]
    refine List.Nodup.map ?_ (List.nodup_range _)
    intro a b hab
    have := natRepr_injective (string_append_cancel_left hab)
    omega

/-- Witness for C1 at the two-table scenario database. -/
theorem rename_tables_mapping_spec_witness :
    usersOrdersDB.tableNames.Nodup
    ∧ (((rename_tables usersOrdersDB "table_" false false []).mapping.map Prod.fst
          = usersOrdersDB.tableNames)
      ∧ ((rename_tables usersOrdersDB "table_" false false []).mapping.map Prod.snd
          = (List.range usersOrdersDB.tableNames.length).map
              (fun j => "table_" ++ Nat.repr (j + 1)))
      ∧ ((rename_tables usersOrdersDB "table_" false false []).mapping.map
            Prod.snd).Nodup) :=
  ⟨by decide, rename_tables_mapping_spec usersOrdersDB "table_" false [] (by decide)⟩

/-- C6: if the enumeration of tables from the schema catalog fails,
rename_tables aborts, returns an empty mapping, leaves the database
unchanged, and issues no rename (mutating) statement. -/
theorem rename_tables_enum_failure (db : DB) (p : String) (d : Bool)
    (faults : List Nat) :
    ((rename_tables db p d true faults).mapping = [])
    ∧ ((rename_tables db p d true faults).db = db)
    ∧ (((rename_tables db p d true faults).stmts.filter Stmt.mutating) = [])
    ∧ ((rename_tables db p d true faults).logs = [LogLine.tableEnumError]) :=
  ⟨rfl, rfl, rfl, rfl⟩

/-- C4 counterexample: in collisionDB, injecting a failure only into the
first table's ALTER (index 0) flips the third table's outcome from success
to failure, because the unrenamed first table still occupies the third
intended name; the outcomes of other tables are therefore not unaffected. -/
theorem rename_tables_failure_not_isolated :
    ((rename_tables collisionDB "table_" false false []).logs
      = [LogLine.renamedTable "table_3" "table_1",
         LogLine.renamedTable "b" "table_2",
         LogLine.renamedTable "c" "table_3"])
    ∧ ((rename_tables collisionDB "table_" false false [0]).logs
      = [LogLine.failedTable "table_3" "table_1",
         LogLine.renamedTable "b" "table_2",
         LogLine.failedTable "c" "table_3"]) := by
  constructor <;> rfl

/-- C4 (amended): in a non-dry run, whichever individual ALTERs fail,
rename_tables logs one line per table and continues: every table's rename is
still attempted in order, and the returned mapping is the complete intended
mapping, the failed tables' entries included with their intended new names. -/
theorem rename_tables_partial_failure (db : DB) (p : String) (faults : List Nat)
    (h : db.tableNames.Nodup) :
    ((rename_tables db p false false faults).stmts
      = Stmt.selectTables :: (intendedMapping p db.tableNames 0).map
          (fun q => Stmt.alterTableRename q.1 q.2))
    ∧ ((rename_tables db p false false faults).mapping
        = intendedMapping p db.tableNames 0)
    ∧ ((rename_tables db p false false faults).logs.length
        = db.tableNames.length) := by
  have hrt : rename_tables db p false false faults
      = renameTablesLoop p false faults db.tableNames 0
          { db := db, mapping := [], stmts := [Stmt.selectTables], logs := [] } := rfl
  refine ⟨?_, ?_, ?_⟩
  · rw [hrt, renameTablesLoop_stmts_nondry]
    rfl
  · rw [hrt, renameTablesLoop_mapping p false faults db.tableNames 0 _
      (by intro o ho q hq; simp at hq) h]
    simp
  · rw [hrt, renameTablesLoop_logs_length]
    simp

/-- Witness for the amended C4 at collisionDB with the first ALTER failing. -/
theorem rename_tables_partial_failure_witness :
    collisionDB.tableNames.Nodup
    ∧ (((rename_tables collisionDB "table_" false false [0]).stmts
        = Stmt.selectTables :: (intendedMapping "table_" collisionDB.tableNames 0).map
            (fun q => Stmt.alterTableRename q.1 q.2))
      ∧ ((rename_tables collisionDB "table_" false false [0]).mapping
          = intendedMapping "table_" collisionDB.tableNames 0)
      ∧ ((rename_tables collisionDB "table_" false false [0]).logs.length
          = collisionDB.tableNames.length)) :=
  ⟨by decide, rename_tables_partial_failure collisionDB "table_" [0] (by decide)⟩

theorem nodup_map_replace (l : List String) (old nw : String)
    (hnd : l.Nodup) (hnew : nw ∉ l) :
    (l.map (fun c => if c == old then nw else c)).Nodup := by
  refine List.Nodup.map_on ?_ hnd
  intro x hx y hy hxy
  by_cases hxo : x = old
  · by_cases hyo : y = old
    · rw [hxo, hyo]
    · rw [if_pos (by simp [hxo]), if_neg (by simp [hyo])] at hxy
      rw [← hxy] at hy
      exact absurd hy hnew
  · by_cases hyo : y = old
    · rw [if_neg (by simp [hxo]), if_pos (by simp [hyo])] at hxy
      rw [hxy] at hx
      exact absurd hx hnew
    · rwa [if_neg (by simp [hxo]), if_neg (by simp [hyo])] at hxy

theorem wf_renameTable {db db2 : DB} {old nw : String}
    (hwf : DB.wf db) (h : db.renameTable old nw = some db2) : DB.wf db2 := by
  unfold DB.renameTable at h
  by_cases hc : (db.tableNames.contains old && !db.tableNames.contains nw) = true
  · rw [if_pos hc] at h
    injection h with h2
    subst h2
    intro tb htb
    rcases List.mem_map.mp htb with ⟨tb0, htb0, rfl⟩
    have hcols : (if tb0.name == old then { tb0 with name := nw } else tb0).cols
        = tb0.cols := by split <;> rfl
    rw [hcols]
    exact hwf tb0 htb0
  · rw [if_neg hc] at h
    cases h

theorem wf_renameColumn {db db2 : DB} {t old nw : String}
    (hwf : DB.wf db) (h : db.renameColumn t old nw = some db2) : DB.wf db2 := by
  unfold DB.renameColumn at h
  cases hl : db.lookup t with
  | none => rw [hl] at h; cases h
  | some tb =>
    rw [hl] at h
    dsimp only at h
    cases hr : tb.renameCol old nw with
    | none => rw [hr] at h; cases h
    | some tb2 =>
      rw [hr] at h
      injection h with h2
      subst h2
      intro x hx
      rcases List.mem_map.mp hx with ⟨x0, hx0, rfl⟩
      by_cases hxn : (x0.name == t) = true
      · rw [if_pos hxn]
        unfold Table.renameCol at hr
        by_cases hg : (tb.cols.contains old && !tb.cols.contains nw) = true
        · rw [if_pos hg] at hr
          injection hr with hr2
          subst hr2
          have htbmem : tb ∈ db := List.mem_of_find?_eq_some hl
          have hnd := hwf tb htbmem
          have hnew : nw ∉ tb.cols := by
            have h2 := (Bool.and_eq_true_iff.mp hg).2
            simpa using h2
          exact nodup_map_replace tb.cols old nw hnd hnew
        · rw [if_neg hg] at hr
          cases hr
      · rw [if_neg hxn]
        exact hwf x0 hx0

/-- PRAGMA table_info of a well-formed database never lists a column twice. -/
theorem tableInfo_nodup {db : DB} (hwf : DB.wf db) (t : String) :
    (db.tableInfo t).Nodup := by
  unfold DB.tableInfo
  cases hl : db.lookup t with
  | none => simp
  | some tb => exact hwf tb (List.mem_of_find?_eq_some hl)

theorem renameColStep_cm (p : String) (d : Bool) (t : String) (ti : Nat)
    (cf : List (Nat × Nat)) (old : String) (i : Nat) (r : ColStep) :
    (renameColStep p d t ti cf old i r).cm
      = dictInsert r.cm old (p ++ Nat.repr (i + 1)) := by
  unfold renameColStep
  cases d with
  | true => rfl
  | false =>
    cases hx : (if cf.contains (ti, i) then none
        else DB.renameColumn r.db t old (p ++ Nat.repr (i + 1))) with
    | none => simp only [hx]; simp
    | some db2 => simp only [hx]; simp

theorem renameColStep_wf (p : String) (d : Bool) (t : String) (ti : Nat)
    (cf : List (Nat × Nat)) (old : String) (i : Nat) (r : ColStep)
    (hwf : DB.wf r.db) :
    DB.wf (renameColStep p d t ti cf old i r).db := by
  unfold renameColStep
  cases d with
  | true => exact hwf
  | false =>
    cases hx : (if cf.contains (ti, i) then none
        else DB.renameColumn r.db t old (p ++ Nat.repr (i + 1))) with
    | none => simp only [hx]; simpa using hwf
    | some db2 =>
      simp only [hx]
      by_cases hcf : cf.contains (ti, i) = true
      · rw [if_pos hcf] at hx; cases hx
      · rw [if_neg hcf] at hx
        simpa using wf_renameColumn hwf hx

theorem renameColStep_dry_db (p : String) (t : String) (ti : Nat)
    (cf : List (Nat × Nat)) (old : String) (i : Nat) (r : ColStep) :
    (renameColStep p true t ti cf old i r).db = r.db := rfl

theorem renameColStep_dry_stmts (p : String) (t : String) (ti : Nat)
    (cf : List (Nat × Nat)) (old : String) (i : Nat) (r : ColStep) :
    (renameColStep p true t ti cf old i r).stmts = r.stmts := rfl

theorem renameColStep_stmts_append (p : String) (d : Bool) (t : String)
    (ti : Nat) (cf : List (Nat × Nat)) (old : String) (i : Nat) (r : ColStep) :
    (renameColStep p d t ti cf old i r).stmts
      = r.stmts ++ (if !d then [Stmt.alterColumnRename t old (p ++ Nat.repr (i + 1))]
                    else []) := by
  unfold renameColStep
  cases d with
  | true => simp
  | false =>
    cases hx : (if cf.contains (ti, i) then none
        else DB.renameColumn r.db t old (p ++ Nat.repr (i + 1))) with
    | none => simp only [hx]; simp
    | some db2 => simp only [hx]; simp

theorem renameColsLoop_cm (p : String) (d : Bool) (t : String) (ti : Nat)
    (cf : List (Nat × Nat)) :
    ∀ (cols : List String) (i : Nat) (r : ColStep),
      (∀ o ∈ cols, ∀ q ∈ r.cm, q.1 ≠ o) → cols.Nodup →
      (renameColsLoop p d t ti cf cols i r).cm = r.cm ++ intendedMapping p cols i := by
  intro cols
  induction cols with
  | nil => intro i r _ _; simp [renameColsLoop, intendedMapping]
  | cons old rest ih =>
    intro i r hfresh hnd
    have hm : (renameColStep p d t ti cf old i r).cm
        = r.cm ++ [(old, p ++ Nat.repr (i + 1))] := by
      rw [renameColStep_cm]
      exact dictInsert_of_not_mem _ _ _
        (fun q hq => hfresh old (List.mem_cons_self old rest) q hq)
    have hfresh2 : ∀ o ∈ rest, ∀ q ∈ (renameColStep p d t ti cf old i r).cm,
        q.1 ≠ o := by
      intro o ho q hq
      rw [hm] at hq
      rcases List.mem_append.mp hq with h1 | h2
      · exact hfresh o (List.mem_cons_of_mem _ ho) q h1
      · obtain rfl := List.mem_singleton.mp h2
        intro hcontra
        have heq : old = o := hcontra
        subst heq
        exact (List.nodup_cons.mp hnd).1 ho
    rw [renameColsLoop, ih (i + 1) _ hfresh2 (List.nodup_cons.mp hnd).2, hm,
      intendedMapping]
    simp

theorem renameColsLoop_wf (p : String) (d : Bool) (t : String) (ti : Nat)
    (cf : List (Nat × Nat)) :
    ∀ (cols : List String) (i : Nat) (r : ColStep), DB.wf r.db →
      DB.wf (renameColsLoop p d t ti cf cols i r).db := by
  intro cols
  induction cols with
  | nil => intro i r h; exact h
  | cons old rest ih =>
    intro i r h
    rw [renameColsLoop]
    exact ih (i + 1) _ (renameColStep_wf p d t ti cf old i r h)

theorem renameColsLoop_dry_db (p : String) (t : String) (ti : Nat)
    (cf : List (Nat × Nat)) :
    ∀ (cols : List String) (i : Nat) (r : ColStep),
      (renameColsLoop p true t ti cf cols i r).db = r.db := by
  intro cols
  induction cols with
  | nil => intro i r; rfl
  | cons old rest ih =>
    intro i r
    rw [renameColsLoop, ih, renameColStep_dry_db]

theorem renameColsLoop_dry_stmts (p : String) (t : String) (ti : Nat)
    (cf : List (Nat × Nat)) :
    ∀ (cols : List String) (i : Nat) (r : ColStep),
      (renameColsLoop p true t ti cf cols i r).stmts = r.stmts := by
  intro cols
  induction cols with
  | nil => intro i r; rfl
  | cons old rest ih =>
    intro i r
    rw [renameColsLoop, ih, renameColStep_dry_stmts]

theorem intendedMapping_length (p : String) (l : List String) (i : Nat) :
    (intendedMapping p l i).length = l.length := by
  induction l generalizing i with
  | nil => rfl
  | cons o rest ih => simp [intendedMapping, ih]

theorem renameColumnsLoop_pragma_fault (p : String) (d : Bool)
    (cf : List (Nat × Nat)) :
    ∀ (ts : List String) (j ti : Nat) (s : CState) (h : j < ts.length),
      renameColumnsLoop p d [ti + j] cf ts ti s
        = { renameColumnsLoop p d [] cf (ts.take j) ti s with
            stmts := (renameColumnsLoop p d [] cf (ts.take j) ti s).stmts
              ++ [Stmt.pragmaTableInfo (ts.get ⟨j, h⟩)],
            logs := (renameColumnsLoop p d [] cf (ts.take j) ti s).logs
              ++ [LogLine.columnPhaseError] } := by
  intro ts
  induction ts with
  | nil => intro j ti s h; simp at h
  | cons t rest ih =>
    intro j ti s h
    cases j with
    | zero =>
      rw [renameColumnsLoop, if_pos (by simp)]
      rfl
    | succ j2 =>
      rw [renameColumnsLoop, if_neg (by simp)]
      have harith : ti + (j2 + 1) = (ti + 1) + j2 := by omega
      rw [harith, ih j2 (ti + 1) _ (by simpa using h)]
      conv_rhs => rw [List.take_succ_cons, renameColumnsLoop, if_neg (by simp)]
      rfl

theorem renameColumnsLoop_colMaps (p : String) (d : Bool)
    (cf : List (Nat × Nat)) :
    ∀ (ts : List String) (ti : Nat) (s : CState), DB.wf s.db →
      (∀ q ∈ s.colMaps, q.2.map Prod.snd
        = (List.range q.2.length).map (fun j => p ++ Nat.repr (j + 1))) →
      ∀ q ∈ (renameColumnsLoop p d [] cf ts ti s).colMaps,
        q.2.map Prod.snd
          = (List.range q.2.length).map (fun j => p ++ Nat.repr (j + 1)) := by
  intro ts
  induction ts with
  | nil => intro ti s _ hs q hq; exact hs q hq
  | cons t rest ih =>
    intro ti s hwf hs
    rw [renameColumnsLoop, if_neg (by simp)]
    have hnd : (s.db.tableInfo t).Nodup := tableInfo_nodup hwf t
    have hcm : (renameColsLoop p d t ti cf (s.db.tableInfo t) 0
        { db := s.db, cm := [],
          stmts := s.stmts ++ [Stmt.pragmaTableInfo t], logs := s.logs }).cm
        = intendedMapping p (s.db.tableInfo t) 0 := by
      rw [renameColsLoop_cm p d t ti cf (s.db.tableInfo t) 0 _
        (by intro o ho q hq; simp at hq) hnd]
      simp
    refine ih (ti + 1) _ ?_ ?_
    · exact renameColsLoop_wf p d t ti cf (s.db.tableInfo t) 0 _ hwf
    · intro q hq
      rcases List.mem_append.mp hq with h1 | h2
      · exact hs q h1
      · obtain rfl := List.mem_singleton.mp h2
        rw [hcm, intendedMapping_map_snd, intendedMapping_length]
        refine List.map_congr_left ?_
        intro j _
        norm_num

theorem renameColumnsLoop_dry (p : String) (pf : List Nat)
    (cf : List (Nat × Nat)) :
    ∀ (ts : List String) (ti : Nat) (s : CState),
      ((renameColumnsLoop p true pf cf ts ti s).db = s.db)
      ∧ ∃ extra, (renameColumnsLoop p true pf cf ts ti s).stmts
            = s.stmts ++ extra
          ∧ extra.all (fun st => !st.mutating) = true := by
  intro ts
  induction ts with
  | nil => intro ti s; exact ⟨rfl, [], by simp [renameColumnsLoop], rfl⟩
  | cons t rest ih =>
    intro ti s
    rw [renameColumnsLoop]
    by_cases hpf : pf.contains ti = true
    · rw [if_pos hpf]
      exact ⟨rfl, [Stmt.pragmaTableInfo t], rfl, rfl⟩
    · rw [if_neg hpf]
      have hinner_db := renameColsLoop_dry_db p t ti cf (s.db.tableInfo t) 0
        { db := s.db, cm := [],
          stmts := s.stmts ++ [Stmt.pragmaTableInfo t], logs := s.logs }
      have hinner_st := renameColsLoop_dry_stmts p t ti cf (s.db.tableInfo t) 0
        { db := s.db, cm := [],
          stmts := s.stmts ++ [Stmt.pragmaTableInfo t], logs := s.logs }
      obtain ⟨hdb, extra, hst, hall⟩ := ih (ti + 1)
        { db := (renameColsLoop p true t ti cf (s.db.tableInfo t) 0
            { db := s.db, cm := [],
              stmts := s.stmts ++ [Stmt.pragmaTableInfo t], logs := s.logs }).db,
          colMaps := s.colMaps ++ [(t, (renameColsLoop p true t ti cf
            (s.db.tableInfo t) 0
            { db := s.db, cm := [],
              stmts := s.stmts ++ [Stmt.pragmaTableInfo t], logs := s.logs }).cm)],
          stmts := (renameColsLoop p true t ti cf (s.db.tableInfo t) 0
            { db := s.db, cm := [],
              stmts := s.stmts ++ [Stmt.pragmaTableInfo t], logs := s.logs }).stmts,
          logs := (renameColsLoop p true t ti cf (s.db.tableInfo t) 0
            { db := s.db, cm := [],
              stmts := s.stmts ++ [Stmt.pragmaTableInfo t], logs := s.logs }).logs }
      refine ⟨by rw [hdb]; exact hinner_db, Stmt.pragmaTableInfo t :: extra, ?_, ?_⟩
      · rw [hst]
        simp only [hinner_st]
        simp
      · simp only [List.all_cons, hall]
        rfl

/-- C3 is violated by the code: rename_columns iterates the mapping values
(the new table names) even in a dry run, where no rename was applied, so the
PRAGMA targets tables that do not exist and enumerates no columns. For the
scenario database the dry run computes the mapping users↦table_1,
orders↦table_2, then enumerates the columns of table_1 and table_2 — both
empty — although the original tables still hold their columns, and emits no
per-column dry-run log line at all. -/
theorem rename_columns_dry_run_reads_new_names :
    ((rename_tables usersOrdersDB "table_" true false []).mapping
      = [("users", "table_1"), ("orders", "table_2")])
    ∧ ((rename_columns usersOrdersDB "column_"
        (rename_tables usersOrdersDB "table_" true false []).mapping
        true [] []).colMaps
      = [("table_1", []), ("table_2", [])])
    ∧ ((rename_columns usersOrdersDB "column_"
        (rename_tables usersOrdersDB "table_" true false []).mapping
        true [] []).logs = [])
    ∧ (usersOrdersDB.tableInfo "users" = ["id", "name"])
    ∧ (usersOrdersDB.tableInfo "table_1" = []) :=
  ⟨rfl, rfl, rfl, rfl, rfl⟩

/-- C5 counterexample: with two tables in the mapping, a column-enumeration
failure at the first table aborts the whole column phase — the second
table's PRAGMA is never issued and no table is processed — because the
try/except in rename_columns wraps the whole loop. -/
theorem rename_columns_enum_failure_aborts :
    ((rename_columns usersOrdersDB "column_"
        [("users", "table_1"), ("orders", "table_2")] false [0] []).stmts
      = [Stmt.pragmaTableInfo "table_1"])
    ∧ ((rename_columns usersOrdersDB "column_"
        [("users", "table_1"), ("orders", "table_2")] false [0] []).logs
      = [LogLine.columnPhaseError])
    ∧ ((rename_columns usersOrdersDB "column_"
        [("users", "table_1"), ("orders", "table_2")] false [0] []).colMaps
      = []) :=
  ⟨rfl, rfl, rfl⟩

/-- C5 (amended): if enumerating the columns of the table at position j
fails, the failure is logged and rename_columns aborts the column phase:
the tables before position j are processed exactly as in a fault-free run,
and neither the failing table nor any later table is processed. -/
theorem rename_columns_enum_failure_spec (db : DB) (p : String)
    (m : List (String × String)) (d : Bool) (cf : List (Nat × Nat)) (j : Nat)
    (h : j < m.length) :
    rename_columns db p m d [j] cf
      = { rename_columns db p (m.take j) d [] cf with
          stmts := (rename_columns db p (m.take j) d [] cf).stmts
            ++ [Stmt.pragmaTableInfo (m.get ⟨j, h⟩).2],
          logs := (rename_columns db p (m.take j) d [] cf).logs
            ++ [LogLine.columnPhaseError] } := by
  unfold rename_columns
  have h2 : j < (m.map Prod.snd).length := by simpa using h
  have hkey := renameColumnsLoop_pragma_fault p d cf (m.map Prod.snd) j 0
    { db := db, colMaps := [], stmts := [], logs := [] } h2
  rw [show 0 + j = j from by omega] at hkey
  rw [hkey, ← List.map_take]
  have hget : (m.map Prod.snd).get ⟨j, h2⟩ = (m.get ⟨j, h⟩).2 := by
    simp
  rw [hget]

/-- Witness for the amended C5: failing the first table's PRAGMA in a
two-table mapping yields the abort state immediately. -/
theorem rename_columns_enum_failure_spec_witness :
    (0 < [("users", "table_1"), ("orders", "table_2")].length)
    ∧ (rename_columns usersOrdersDB "column_"
          [("users", "table_1"), ("orders", "table_2")] false [0] []
        = { rename_columns usersOrdersDB "column_"
              ([("users", "table_1"), ("orders", "table_2")].take 0) false [] []
            with
            stmts := (rename_columns usersOrdersDB "column_"
              ([("users", "table_1"), ("orders", "table_2")].take 0) false [] []).stmts
              ++ [Stmt.pragmaTableInfo
                  ([("users", "table_1"), ("orders", "table_2")].get
                    ⟨0, by decide⟩).2],
            logs := (rename_columns usersOrdersDB "column_"
              ([("users", "table_1"), ("orders", "table_2")].take 0) false [] []).logs
              ++ [LogLine.columnPhaseError] }) :=
  ⟨by decide, rename_columns_enum_failure_spec usersOrdersDB "column_"
    [("users", "table_1"), ("orders", "table_2")] false [] 0 (by decide)⟩

/-- C7: for every table processed by rename_columns in a run without
enumeration faults, column numbering restarts at 1: the values of that
table's column mapping are exactly the column prefix concatenated with 1..M
in column discovery order, M being the number of columns enumerated for the
table, independent of any other table's column count. -/
theorem rename_columns_numbering (db : DB) (p : String)
    (m : List (String × String)) (d : Bool) (cf : List (Nat × Nat))
    (hwf : DB.wf db) :
    ∀ q ∈ (rename_columns db p m d [] cf).colMaps,
      q.2.map Prod.snd
        = (List.range q.2.length).map (fun j => p ++ Nat.repr (j + 1)) := by
  unfold rename_columns
  exact renameColumnsLoop_colMaps p d cf (m.map Prod.snd) 0 _ hwf
    (by intro q hq; simp at hq)

/-- Witness for C7 at the scenario database, renaming the columns of the
users table in place. -/
theorem rename_columns_numbering_witness :
    DB.wf usersOrdersDB
    ∧ (("users", [("id", "column_1"), ("name", "column_2")])
        ∈ (rename_columns usersOrdersDB "column_" [("users", "users")]
            false [] []).colMaps)
    ∧ ((("users", [("id", "column_1"), ("name", "column_2")]) :
          String × List (String × String)).2.map Prod.snd
        = (List.range (("users", [("id", "column_1"), ("name", "column_2")]) :
            String × List (String × String)).2.length).map
            (fun j => "column_" ++ Nat.repr (j + 1))) :=
  ⟨by unfold DB.wf; decide, by decide,
    rename_columns_numbering usersOrdersDB "column_" [("users", "users")]
      false [] (by unfold DB.wf; decide) _ (by decide)⟩

/-- C9: the constraint advisory issues no statement and performs no
mutation — the database is returned unchanged — and always emits the
constraint warning plus an informational line carrying the dry-run flag. -/
theorem handle_foreign_key_constraints_spec (db : DB)
    (m : List (String × String)) (d : Bool) :
    handle_foreign_key_constraints db m d
      = (db, [], [LogLine.fkWarning, LogLine.fkInfo d]) := rfl

theorem rename_tables_dry_db (db : DB) (pt : String) (ef : Bool)
    (tf : List Nat) : (rename_tables db pt true ef tf).db = db := by
  cases ef with
  | true => rfl
  | false =>
    show (renameTablesLoop pt true tf db.tableNames 0
      { db := db, mapping := [], stmts := [Stmt.selectTables], logs := [] }).db = db
    rw [renameTablesLoop_dry_db]

theorem rename_tables_dry_stmts (db : DB) (pt : String) (ef : Bool)
    (tf : List Nat) :
    (rename_tables db pt true ef tf).stmts = [Stmt.selectTables] := by
  cases ef with
  | true => rfl
  | false =>
    show (renameTablesLoop pt true tf db.tableNames 0
      { db := db, mapping := [], stmts := [Stmt.selectTables], logs := [] }).stmts
      = [Stmt.selectTables]
    rw [renameTablesLoop_dry_stmts]

theorem rename_tables_mapping_indep (db : DB) (pt : String) (ef : Bool)
    (d1 d2 : Bool) (f1 f2 : List Nat) :
    (rename_tables db pt d1 ef f1).mapping
      = (rename_tables db pt d2 ef f2).mapping := by
  cases ef with
  | true => rfl
  | false =>
    show (renameTablesLoop pt d1 f1 db.tableNames 0
        { db := db, mapping := [], stmts := [Stmt.selectTables], logs := [] }).mapping
      = (renameTablesLoop pt d2 f2 db.tableNames 0
        { db := db, mapping := [], stmts := [Stmt.selectTables], logs := [] }).mapping
    exact renameTablesLoop_mapping_indep pt db.tableNames 0 d1 d2 f1 f2 _ _ rfl

theorem rename_columns_dry_db (db : DB) (p : String)
    (m : List (String × String)) (pf : List Nat) (cf : List (Nat × Nat)) :
    (rename_columns db p m true pf cf).db = db :=
  (renameColumnsLoop_dry p pf cf (m.map Prod.snd) 0
    { db := db, colMaps := [], stmts := [], logs := [] }).1

theorem rename_columns_dry_stmts_nonmut (db : DB) (p : String)
    (m : List (String × String)) (pf : List Nat) (cf : List (Nat × Nat)) :
    ((rename_columns db p m true pf cf).stmts.all
      (fun st => !st.mutating)) = true := by
  obtain ⟨-, extra, hst, hall⟩ := renameColumnsLoop_dry p pf cf
    (m.map Prod.snd) 0 { db := db, colMaps := [], stmts := [], logs := [] }
  show ((renameColumnsLoop p true pf cf (m.map Prod.snd) 0
    { db := db, colMaps := [], stmts := [], logs := [] }).stmts.all
      (fun st => !st.mutating)) = true
  rw [hst]
  simpa using hall

/-- C2: a dry run issues no mutating statement (no table or column ALTER and
no commit) through rename_tables, rename_columns and the commit step, leaves
the database unchanged at the end of the run, and returns exactly the table
mapping that the corresponding non-dry run computes, whatever rename faults
that run encounters. -/
theorem runAll_dry_run (db : DB) (pt pc : String) (ef : Bool)
    (tf tf2 pf pf2 : List Nat) (cf cf2 : List (Nat × Nat)) :
    ((runAll db pt pc true ef tf pf cf).db = db)
    ∧ (((runAll db pt pc true ef tf pf cf).stmts.all
        (fun st => !st.mutating)) = true)
    ∧ ((runAll db pt pc true ef tf pf cf).mapping
        = (runAll db pt pc false ef tf2 pf2 cf2).mapping) := by
  refine ⟨?_, ?_, ?_⟩
  · show (handle_foreign_key_constraints
      (rename_columns (rename_tables db pt true ef tf).db pc
        (rename_tables db pt true ef tf).mapping true pf cf).db
      (rename_tables db pt true ef tf).mapping true).1 = db
    rw [handle_foreign_key_constraints]
    rw [rename_columns_dry_db, rename_tables_dry_db]
  · show (((rename_tables db pt true ef tf).stmts
        ++ (rename_columns (rename_tables db pt true ef tf).db pc
            (rename_tables db pt true ef tf).mapping true pf cf).stmts
        ++ (handle_foreign_key_constraints
            (rename_columns (rename_tables db pt true ef tf).db pc
              (rename_tables db pt true ef tf).mapping true pf cf).db
            (rename_tables db pt true ef tf).mapping true).2.1
        ++ (if !true then [Stmt.commit] else [])).all
          (fun st => !st.mutating)) = true
    rw [handle_foreign_key_constraints, rename_tables_dry_stmts]
    simp only [Bool.not_true, Bool.false_eq_true, if_false, List.append_nil,
      List.all_append]
    rw [rename_columns_dry_stmts_nonmut]
    rfl
  · show (rename_tables db pt true ef tf).mapping
      = (rename_tables db pt false ef tf2).mapping
    exact rename_tables_mapping_indep db pt ef true false tf tf2

theorem escQuote_of_no_quote : ∀ (l : List Char), '"' ∉ l → escQuote l = l := by
  intro l
  induction l with
  | nil => intro _; rfl
  | cons c rest ih =>
    intro h
    rw [escQuote,
      if_neg (by intro hc; exact h (by rw [hc]; exact List.mem_cons_self _ _)),
      ih (fun hm => h (List.mem_cons_of_mem _ hm))]

theorem specQuotedIdent_of_no_quote (s : String) (h : '"' ∉ s.data) :
    specQuotedIdent s = "\"" ++ s ++ "\"" := by
  unfold specQuotedIdent
  rw [escQuote_of_no_quote s.data h]
  rfl

theorem string_data_append (a b : String) : (a ++ b).data = a.data ++ b.data :=
  rfl

/-- C8 counterexample: a name containing a double quote is not embedded as a
correctly quoted identifier — the code interpolates the raw name between
double quotes without escaping it, so the built statement differs from the
one using properly quoted identifiers. -/
theorem alterTableSQL_quote_not_escaped :
    alterTableSQL "a\"b" "table_1"
      ≠ "ALTER TABLE " ++ specQuotedIdent "a\"b" ++ " RENAME TO "
        ++ specQuotedIdent "table_1" ++ ";" := by
  decide

/-- C8 (amended): for every table or column name free of embedded double
quotes — including names containing spaces or reserved words — the rename
statements built by rename_tables and rename_columns embed each name as a
correctly quoted identifier, never concatenated unquoted; names containing a
double quote are not correctly escaped. -/
theorem rename_sql_quotes_identifiers (t old nw : String)
    (ht : '"' ∉ t.data) (ho : '"' ∉ old.data) (hn : '"' ∉ nw.data) :
    (alterTableSQL old nw
      = "ALTER TABLE " ++ specQuotedIdent old ++ " RENAME TO "
        ++ specQuotedIdent nw ++ ";")
    ∧ (alterColumnSQL t old nw
      = "ALTER TABLE " ++ specQuotedIdent t ++ " RENAME COLUMN "
        ++ specQuotedIdent old ++ " TO " ++ specQuotedIdent nw ++ ";") := by
  rw [specQuotedIdent_of_no_quote t ht, specQuotedIdent_of_no_quote old ho,
    specQuotedIdent_of_no_quote nw hn]
  constructor
  · apply String.ext
    unfold alterTableSQL
    simp only [string_data_append]
    simp
  · apply String.ext
    unfold alterColumnSQL
    simp only [string_data_append]
    simp

/-- Witness for the amended C8: a reserved-word table name and a column name
containing a space are embedded as correctly quoted identifiers. -/
theorem rename_sql_quotes_identifiers_witness :
    ('"' ∉ "order".data) ∧ ('"' ∉ "user id".data) ∧ ('"' ∉ "column_1".data)
    ∧ ((alterTableSQL "user id" "column_1"
        = "ALTER TABLE " ++ specQuotedIdent "user id" ++ " RENAME TO "
          ++ specQuotedIdent "column_1" ++ ";")
      ∧ (alterColumnSQL "order" "user id" "column_1"
        = "ALTER TABLE " ++ specQuotedIdent "order" ++ " RENAME COLUMN "
          ++ specQuotedIdent "user id" ++ " TO "
          ++ specQuotedIdent "column_1" ++ ";")) :=
  ⟨by decide, by decide, by decide,
    rename_sql_quotes_identifiers "order" "user id" "column_1"
      (by decide) (by decide) (by decide)⟩

theorem tableNames_eq_catalog (db : DB) :
    db.tableNames = db.catalog.map Prod.fst := by
  unfold DB.tableNames DB.catalog
  rw [List.map_map]
  rfl

theorem cat_tableNames {db1 db2 : DB} (h : db1.catalog = db2.catalog) :
    db1.tableNames = db2.tableNames := by
  rw [tableNames_eq_catalog, tableNames_eq_catalog, h]

theorem lookup_catalog (db : DB) (t : String) :
    (db.lookup t).map (fun tb => (tb.name, tb.cols))
      = db.catalog.find? (fun e => e.1 == t) := by
  induction db with
  | nil => rfl
  | cons tb rest ih =>
    unfold DB.lookup DB.catalog
    rw [List.map_cons]
    by_cases h : (tb.name == t) = true
    · rw [@List.find?_cons_of_pos _ (fun tb => tb.name == t) tb rest h,
        @List.find?_cons_of_pos _ (fun e => e.1 == t) (tb.name, tb.cols) _ h]
      rfl
    · rw [@List.find?_cons_of_neg _ (fun tb => tb.name == t) tb rest h,
        @List.find?_cons_of_neg _ (fun e => e.1 == t) (tb.name, tb.cols) _ h]
      exact ih

theorem tableInfo_eq_catalog (db : DB) (t : String) :
    db.tableInfo t
      = (((db.lookup t).map (fun tb => (tb.name, tb.cols))).map Prod.snd).getD [] := by
  unfold DB.tableInfo
  cases db.lookup t <;> rfl

theorem cat_tableInfo {db1 db2 : DB} (h : db1.catalog = db2.catalog)
    (t : String) : db1.tableInfo t = db2.tableInfo t := by
  rw [tableInfo_eq_catalog, tableInfo_eq_catalog, lookup_catalog, lookup_catalog, h]

theorem catalog_map_renameT (db : DB) (o n : String) :
    DB.catalog (db.map (fun tb => if tb.name == o then { tb with name := n } else tb))
      = db.catalog.map (fun e => if e.1 == o then (n, e.2) else e) := by
  unfold DB.catalog
  rw [List.map_map, List.map_map]
  refine List.map_congr_left ?_
  intro tb _
  by_cases h : (tb.name == o) = true
  · simp [Function.comp, h]
  · simp [Function.comp, h]

theorem cat_renameTable {db1 db2 : DB} (h : db1.catalog = db2.catalog)
    (o n : String) :
    (db1.renameTable o n).map DB.catalog
      = (db2.renameTable o n).map DB.catalog := by
  unfold DB.renameTable
  rw [cat_tableNames h]
  by_cases hg : (db2.tableNames.contains o && !db2.tableNames.contains n) = true
  · rw [if_pos hg, if_pos hg]
    simp only [Option.map_some']
    rw [catalog_map_renameT, catalog_map_renameT, h]
  · rw [if_neg hg, if_neg hg]

theorem catalog_map_setTable (db : DB) (t : String) (tb2 : Table) :
    DB.catalog (db.map (fun x => if x.name == t then tb2 else x))
      = db.catalog.map (fun e => if e.1 == t then (tb2.name, tb2.cols) else e) := by
  unfold DB.catalog
  rw [List.map_map, List.map_map]
  refine List.map_congr_left ?_
  intro x _
  by_cases h : (x.name == t) = true
  · simp [Function.comp, h]
  · simp [Function.comp, h]

theorem cat_renameColumn {db1 db2 : DB} (h : db1.catalog = db2.catalog)
    (t o n : String) :
    (db1.renameColumn t o n).map DB.catalog
      = (db2.renameColumn t o n).map DB.catalog := by
  unfold DB.renameColumn
  have hl : (db1.lookup t).map (fun tb => (tb.name, tb.cols))
      = (db2.lookup t).map (fun tb => (tb.name, tb.cols)) := by
    rw [lookup_catalog, lookup_catalog, h]
  cases h1 : db1.lookup t with
  | none =>
    cases h2 : db2.lookup t with
    | none => rfl
    | some tbB => rw [h1, h2] at hl; simp at hl
  | some tbA =>
    cases h2 : db2.lookup t with
    | none => rw [h1, h2] at hl; simp at hl
    | some tbB =>
      rw [h1, h2] at hl
      simp only [Option.map_some'] at hl
      have hlp := Option.some.inj hl
      have hname : tbA.name = tbB.name := congrArg Prod.fst hlp
      have hcols : tbA.cols = tbB.cols := congrArg Prod.snd hlp
      dsimp only
      unfold Table.renameCol
      rw [hcols]
      by_cases hg : (tbB.cols.contains o && !tbB.cols.contains n) = true
      · rw [if_pos hg, if_pos hg]
        simp only [Option.map_some']
        rw [catalog_map_setTable, catalog_map_setTable, h]
        refine congrArg some (List.map_congr_left ?_)
        intro e _
        by_cases he : (e.1 == t) = true
        · simp [he, hname]
        · simp [he]
      · rw [if_neg hg, if_neg hg]

theorem renameTableStep_sim (p : String) (d : Bool) (f : List Nat)
    (old : String) (i : Nat) (s1 s2 : TState)
    (hdb : s1.db.catalog = s2.db.catalog) (hm : s1.mapping = s2.mapping)
    (hst : s1.stmts = s2.stmts) (hlg : s1.logs = s2.logs) :
    ((renameTableStep p d f old i s1).db.catalog
        = (renameTableStep p d f old i s2).db.catalog)
    ∧ ((renameTableStep p d f old i s1).mapping
        = (renameTableStep p d f old i s2).mapping)
    ∧ ((renameTableStep p d f old i s1).stmts
        = (renameTableStep p d f old i s2).stmts)
    ∧ ((renameTableStep p d f old i s1).logs
        = (renameTableStep p d f old i s2).logs) := by
  unfold renameTableStep
  cases d with
  | true =>
    exact ⟨hdb, congrArg (fun m => dictInsert m old (p ++ Nat.repr (i + 1))) hm,
      hst,
      congrArg (fun l => l ++ [LogLine.dryRunTable old (p ++ Nat.repr (i + 1))]) hlg⟩
  | false =>
    have hopt : (if f.contains i then none
          else s1.db.renameTable old (p ++ Nat.repr (i + 1))).map DB.catalog
        = (if f.contains i then none
          else s2.db.renameTable old (p ++ Nat.repr (i + 1))).map DB.catalog := by
      by_cases hf : f.contains i = true
      · rw [if_pos hf, if_pos hf]
      · rw [if_neg hf, if_neg hf]
        exact cat_renameTable hdb old _
    cases hx1 : (if f.contains i then none
        else s1.db.renameTable old (p ++ Nat.repr (i + 1))) with
    | none =>
      cases hx2 : (if f.contains i then none
          else s2.db.renameTable old (p ++ Nat.repr (i + 1))) with
      | none =>
        simp only [hx1, hx2]
        exact ⟨hdb,
          congrArg (fun m => dictInsert m old (p ++ Nat.repr (i + 1))) hm,
          congrArg (fun l => l ++ [Stmt.alterTableRename old (p ++ Nat.repr (i + 1))]) hst,
          congrArg (fun l => l ++ [LogLine.failedTable old (p ++ Nat.repr (i + 1))]) hlg⟩
      | some dbB => rw [hx1, hx2] at hopt; simp at hopt
    | some dbA =>
      cases hx2 : (if f.contains i then none
          else s2.db.renameTable old (p ++ Nat.repr (i + 1))) with
      | none => rw [hx1, hx2] at hopt; simp at hopt
      | some dbB =>
        rw [hx1, hx2] at hopt
        simp only [Option.map_some'] at hopt
        have hcat := Option.some.inj hopt
        simp only [hx1, hx2]
        exact ⟨hcat,
          congrArg (fun m => dictInsert m old (p ++ Nat.repr (i + 1))) hm,
          congrArg (fun l => l ++ [Stmt.alterTableRename old (p ++ Nat.repr (i + 1))]) hst,
          congrArg (fun l => l ++ [LogLine.renamedTable old (p ++ Nat.repr (i + 1))]) hlg⟩

theorem renameTablesLoop_sim (p : String) (d : Bool) (f : List Nat) :
    ∀ (rest : List String) (i : Nat) (s1 s2 : TState),
      s1.db.catalog = s2.db.catalog → s1.mapping = s2.mapping →
      s1.stmts = s2.stmts → s1.logs = s2.logs →
      ((renameTablesLoop p d f rest i s1).db.catalog
          = (renameTablesLoop p d f rest i s2).db.catalog)
      ∧ ((renameTablesLoop p d f rest i s1).mapping
          = (renameTablesLoop p d f rest i s2).mapping)
      ∧ ((renameTablesLoop p d f rest i s1).stmts
          = (renameTablesLoop p d f rest i s2).stmts)
      ∧ ((renameTablesLoop p d f rest i s1).logs
          = (renameTablesLoop p d f rest i s2).logs) := by
  intro rest
  induction rest with
  | nil => intro i s1 s2 h1 h2 h3 h4; exact ⟨h1, h2, h3, h4⟩
  | cons old rest ih =>
    intro i s1 s2 h1 h2 h3 h4
    rw [renameTablesLoop, renameTablesLoop]
    obtain ⟨g1, g2, g3, g4⟩ := renameTableStep_sim p d f old i s1 s2 h1 h2 h3 h4
    exact ih (i + 1) _ _ g1 g2 g3 g4

theorem rename_tables_sim {db1 db2 : DB} (h : db1.catalog = db2.catalog)
    (pt : String) (d ef : Bool) (tf : List Nat) :
    ((rename_tables db1 pt d ef tf).db.catalog
        = (rename_tables db2 pt d ef tf).db.catalog)
    ∧ ((rename_tables db1 pt d ef tf).mapping
        = (rename_tables db2 pt d ef tf).mapping)
    ∧ ((rename_tables db1 pt d ef tf).stmts
        = (rename_tables db2 pt d ef tf).stmts)
    ∧ ((rename_tables db1 pt d ef tf).logs
        = (rename_tables db2 pt d ef tf).logs) := by
  cases ef with
  | true => exact ⟨h, rfl, rfl, rfl⟩
  | false =>
    have hn := cat_tableNames h
    have e1 : rename_tables db1 pt d false tf
        = renameTablesLoop pt d tf db2.tableNames 0
          { db := db1, mapping := [], stmts := [Stmt.selectTables], logs := [] } := by
      have e0 : rename_tables db1 pt d false tf
          = renameTablesLoop pt d tf db1.tableNames 0
            { db := db1, mapping := [], stmts := [Stmt.selectTables], logs := [] } :=
        rfl
      rw [e0, hn]
    have e2 : rename_tables db2 pt d false tf
        = renameTablesLoop pt d tf db2.tableNames 0
          { db := db2, mapping := [], stmts := [Stmt.selectTables], logs := [] } :=
      rfl
    rw [e1, e2]
    exact renameTablesLoop_sim pt d tf db2.tableNames 0 _ _ h rfl rfl rfl

theorem renameColStep_sim (p : String) (d : Bool) (t : String) (ti : Nat)
    (cf : List (Nat × Nat)) (old : String) (i : Nat) (r1 r2 : ColStep)
    (hdb : r1.db.catalog = r2.db.catalog) (hcm : r1.cm = r2.cm)
    (hst : r1.stmts = r2.stmts) (hlg : r1.logs = r2.logs) :
    ((renameColStep p d t ti cf old i r1).db.catalog
        = (renameColStep p d t ti cf old i r2).db.catalog)
    ∧ ((renameColStep p d t ti cf old i r1).cm
        = (renameColStep p d t ti cf old i r2).cm)
    ∧ ((renameColStep p d t ti cf old i r1).stmts
        = (renameColStep p d t ti cf old i r2).stmts)
    ∧ ((renameColStep p d t ti cf old i r1).logs
        = (renameColStep p d t ti cf old i r2).logs) := by
  unfold renameColStep
  cases d with
  | true =>
    exact ⟨hdb, congrArg (fun m => dictInsert m old (p ++ Nat.repr (i + 1))) hcm,
      hst,
      congrArg (fun l => l ++ [LogLine.dryRunColumn t old (p ++ Nat.repr (i + 1))]) hlg⟩
  | false =>
    have hopt : (if cf.contains (ti, i) then none
          else r1.db.renameColumn t old (p ++ Nat.repr (i + 1))).map DB.catalog
        = (if cf.contains (ti, i) then none
          else r2.db.renameColumn t old (p ++ Nat.repr (i + 1))).map DB.catalog := by
      by_cases hf : cf.contains (ti, i) = true
      · rw [if_pos hf, if_pos hf]
      · rw [if_neg hf, if_neg hf]
        exact cat_renameColumn hdb t old _
    cases hx1 : (if cf.contains (ti, i) then none
        else r1.db.renameColumn t old (p ++ Nat.repr (i + 1))) with
    | none =>
      cases hx2 : (if cf.contains (ti, i) then none
          else r2.db.renameColumn t old (p ++ Nat.repr (i + 1))) with
      | none =>
        simp only [hx1, hx2]
        exact ⟨hdb,
          congrArg (fun m => dictInsert m old (p ++ Nat.repr (i + 1))) hcm,
          congrArg (fun l => l ++ [Stmt.alterColumnRename t old (p ++ Nat.repr (i + 1))]) hst,
          congrArg (fun l => l ++ [LogLine.failedColumn t old (p ++ Nat.repr (i + 1))]) hlg⟩
      | some dbB => rw [hx1, hx2] at hopt; simp at hopt
    | some dbA =>
      cases hx2 : (if cf.contains (ti, i) then none
          else r2.db.renameColumn t old (p ++ Nat.repr (i + 1))) with
      | none => rw [hx1, hx2] at hopt; simp at hopt
      | some dbB =>
        rw [hx1, hx2] at hopt
        simp only [Option.map_some'] at hopt
        have hcat := Option.some.inj hopt
        simp only [hx1, hx2]
        exact ⟨hcat,
          congrArg (fun m => dictInsert m old (p ++ Nat.repr (i + 1))) hcm,
          congrArg (fun l => l ++ [Stmt.alterColumnRename t old (p ++ Nat.repr (i + 1))]) hst,
          congrArg (fun l => l ++ [LogLine.renamedColumn t old (p ++ Nat.repr (i + 1))]) hlg⟩

theorem renameColsLoop_sim (p : String) (d : Bool) (t : String) (ti : Nat)
    (cf : List (Nat × Nat)) :
    ∀ (cols : List String) (i : Nat) (r1 r2 : ColStep),
      r1.db.catalog = r2.db.catalog → r1.cm = r2.cm →
      r1.stmts = r2.stmts → r1.logs = r2.logs →
      ((renameColsLoop p d t ti cf cols i r1).db.catalog
          = (renameColsLoop p d t ti cf cols i r2).db.catalog)
      ∧ ((renameColsLoop p d t ti cf cols i r1).cm
          = (renameColsLoop p d t ti cf cols i r2).cm)
      ∧ ((renameColsLoop p d t ti cf cols i r1).stmts
          = (renameColsLoop p d t ti cf cols i r2).stmts)
      ∧ ((renameColsLoop p d t ti cf cols i r1).logs
          = (renameColsLoop p d t ti cf cols i r2).logs) := by
  intro cols
  induction cols with
  | nil => intro i r1 r2 h1 h2 h3 h4; exact ⟨h1, h2, h3, h4⟩
  | cons old rest ih =>
    intro i r1 r2 h1 h2 h3 h4
    rw [renameColsLoop, renameColsLoop]
    obtain ⟨g1, g2, g3, g4⟩ := renameColStep_sim p d t ti cf old i r1 r2 h1 h2 h3 h4
    exact ih (i + 1) _ _ g1 g2 g3 g4

theorem renameColumnsLoop_sim (p : String) (d : Bool) (pf : List Nat)
    (cf : List (Nat × Nat)) :
    ∀ (ts : List String) (ti : Nat) (s1 s2 : CState),
      s1.db.catalog = s2.db.catalog → s1.colMaps = s2.colMaps →
      s1.stmts = s2.stmts → s1.logs = s2.logs →
      ((renameColumnsLoop p d pf cf ts ti s1).db.catalog
          = (renameColumnsLoop p d pf cf ts ti s2).db.catalog)
      ∧ ((renameColumnsLoop p d pf cf ts ti s1).colMaps
          = (renameColumnsLoop p d pf cf ts ti s2).colMaps)
      ∧ ((renameColumnsLoop p d pf cf ts ti s1).stmts
          = (renameColumnsLoop p d pf cf ts ti s2).stmts)
      ∧ ((renameColumnsLoop p d pf cf ts ti s1).logs
          = (renameColumnsLoop p d pf cf ts ti s2).logs) := by
  intro ts
  induction ts with
  | nil => intro ti s1 s2 h1 h2 h3 h4; exact ⟨h1, h2, h3, h4⟩
  | cons t rest ih =>
    intro ti s1 s2 h1 h2 h3 h4
    rw [renameColumnsLoop, renameColumnsLoop]
    by_cases hpf : pf.contains ti = true
    · rw [if_pos hpf, if_pos hpf]
      exact ⟨h1, h2,
        congrArg (fun l => l ++ [Stmt.pragmaTableInfo t]) h3,
        congrArg (fun l => l ++ [LogLine.columnPhaseError]) h4⟩
    · rw [if_neg hpf, if_neg hpf]
      have hcols : s1.db.tableInfo t = s2.db.tableInfo t := cat_tableInfo h1 t
      rw [hcols]
      obtain ⟨g1, g2, g3, g4⟩ := renameColsLoop_sim p d t ti cf
        (s2.db.tableInfo t) 0
        { db := s1.db, cm := [],
          stmts := s1.stmts ++ [Stmt.pragmaTableInfo t], logs := s1.logs }
        { db := s2.db, cm := [],
          stmts := s2.stmts ++ [Stmt.pragmaTableInfo t], logs := s2.logs }
        h1 rfl (congrArg (fun l => l ++ [Stmt.pragmaTableInfo t]) h3) h4
      refine ih (ti + 1) _ _ g1 ?_ g3 g4
      rw [h2, g2]

theorem rename_columns_sim {db1 db2 : DB} (h : db1.catalog = db2.catalog)
    (p : String) (m : List (String × String)) (d : Bool) (pf : List Nat)
    (cf : List (Nat × Nat)) :
    ((rename_columns db1 p m d pf cf).db.catalog
        = (rename_columns db2 p m d pf cf).db.catalog)
    ∧ ((rename_columns db1 p m d pf cf).colMaps
        = (rename_columns db2 p m d pf cf).colMaps)
    ∧ ((rename_columns db1 p m d pf cf).stmts
        = (rename_columns db2 p m d pf cf).stmts)
    ∧ ((rename_columns db1 p m d pf cf).logs
        = (rename_columns db2 p m d pf cf).logs) := by
  unfold rename_columns
  exact renameColumnsLoop_sim p d pf cf (m.map Prod.snd) 0 _ _ h rfl rfl rfl

/-- C10: rename_tables and rename_columns are deterministic functions of the
catalog contents (table list and per-table column lists in catalog order),
the prefixes and the dry-run flag: two runs over databases with identical
catalogs — whatever their row contents — produce identical mappings and
issue identical statement sequences, and identical logs. -/
theorem runAll_deterministic (db1 db2 : DB) (pt pc : String) (d ef : Bool)
    (tf pf : List Nat) (cf : List (Nat × Nat))
    (h : db1.catalog = db2.catalog) :
    ((runAll db1 pt pc d ef tf pf cf).mapping
        = (runAll db2 pt pc d ef tf pf cf).mapping)
    ∧ ((runAll db1 pt pc d ef tf pf cf).stmts
        = (runAll db2 pt pc d ef tf pf cf).stmts)
    ∧ ((runAll db1 pt pc d ef tf pf cf).logs
        = (runAll db2 pt pc d ef tf pf cf).logs) := by
  obtain ⟨t1, t2, t3, t4⟩ := rename_tables_sim h pt d ef tf
  obtain ⟨c1, c2, c3, c4⟩ := rename_columns_sim t1 pc
    (rename_tables db2 pt d ef tf).mapping d pf cf
  simp only [runAll, handle_foreign_key_constraints]
  rw [t2, t3, t4, c3, c4]
  exact ⟨rfl, rfl, rfl⟩

/-- Witness for C10: two single-table databases that differ only in row
contents produce identical outputs. -/
theorem runAll_deterministic_witness :
    ((rowsDB [["1", "alice"]]).catalog = (rowsDB []).catalog)
    ∧ (((runAll (rowsDB [["1", "alice"]]) "table_" "column_" false false [] [] []).mapping
        = (runAll (rowsDB []) "table_" "column_" false false [] [] []).mapping)
      ∧ ((runAll (rowsDB [["1", "alice"]]) "table_" "column_" false false [] [] []).stmts
        = (runAll (rowsDB []) "table_" "column_" false false [] [] []).stmts)
      ∧ ((runAll (rowsDB [["1", "alice"]]) "table_" "column_" false false [] [] []).logs
        = (runAll (rowsDB []) "table_" "column_" false false [] [] []).logs)) :=
  ⟨by decide, runAll_deterministic (rowsDB [["1", "alice"]]) (rowsDB [])
    "table_" "column_" false false [] [] [] (by decide)⟩
